import Mathlib

/-!
Verification of the `grrs` command-line search utility.

Text is modelled as `List Char`.  The library functions `print_matches`,
`write_matches` and `purge_file` from `src/grrs/src/lib.rs` and the driver
`main` from `src/grrs/src/main.rs` are embedded as pure functions; the
state of the single output file is an `Option (List Char)` (`none` means
the file does not exist), fallible OS calls (open of the input file,
`remove_file`, the flush of the buffered writer) are parameterised by
explicit success oracles.
-/

/-- Text: a sequence of characters. -/
abbrev Str := List Char

/-- The character list of a string literal. -/
def lit (s : String) : Str := s.data

/-- Does `hay` start with `pat`?  Models the inner step of `str::contains`. -/
def startsWithChars : Str → Str → Bool
  | _, [] => true
  | [], _ :: _ => false
  | h :: hs, p :: ps => if h = p then startsWithChars hs ps else false

/-- Substring containment: models Rust `hay.contains(pat)` for string
patterns (`pat` occurs contiguously somewhere in `hay`). -/
def containsChars : Str → Str → Bool
  | [], pat => pat.isEmpty
  | h :: hs, pat => startsWithChars (h :: hs) pat || containsChars hs pat

/-- Split a character sequence at every newline character; models the
splitting underlying Rust `str::split('\n')` (the separators are removed,
a final fragment is always produced, possibly empty). -/
def splitNl : Str → List Str
  | [] => [[]]
  | c :: cs =>
    if c = '\n' then [] :: splitNl cs
    else
      match splitNl cs with
      | [] => [[c]]
      | p :: ps => (c :: p) :: ps

/-- Remove one trailing carriage return, if present; models the handling
of a `\r\n` line terminator in Rust `str::lines`. -/
def stripCR : Str → Str
  | [] => []
  | [c] => if c = '\r' then [] else [c]
  | c :: d :: ds => c :: stripCR (d :: ds)

/-- Assemble the fragments produced by `splitNl` into the lines that Rust
`str::lines` (and `BufRead::lines`) yields: every fragment that was
terminated by a newline loses one trailing carriage return; the final
unterminated fragment is kept verbatim, except that an empty final
fragment (the input ended in a newline) yields no line. -/
def rustLinesAux : List Str → List Str
  | [] => []
  | [last] => if last = [] then [] else [last]
  | l :: m :: ms => stripCR l :: rustLinesAux (m :: ms)

/-- The lines of a text, as Rust `str::lines` / `BufRead::lines` produce
them. -/
def rustLines (s : Str) : List Str := rustLinesAux (splitNl s)

/-- One emitted record: the bytes of `writeln!(w, "LINE# {}: {}", num, line)`
from `print_matches` (identical to the bytes `write_matches` formats). -/
def record (num : Int) (line : Str) : Str :=
  lit "LINE# " ++ (toString num).data ++ lit ": " ++ line ++ ['\n']

/-- `print_matches` from `src/grrs/src/lib.rs`, lines 20-33: for every line
of `content` that contains `pattern`, write the formatted record to the
writer.  The writer is modelled by the sequence of bytes it receives; the
returned value is that sequence.  (Sink write failures are modelled
separately by `print_matchesE`.) -/
def print_matches (content : Str) (num : Int) (pattern : Str) : Str :=
  (rustLines content).foldl
    (fun out line => if containsChars line pattern then out ++ record num line else out) []

/-- `write_matches` from `src/grrs/src/lib.rs`, lines 56-73, happy path:
the output file is opened with `create(true).append(true)` (so it exists
afterwards, keeping its previous content, or empty when it was absent) and
the same records `print_matches` would produce are appended (the loop and
the `format!` string are identical; `num` is stringified once up front,
which renders the same text).  The file state is `none` when the file does
not exist, `some bytes` otherwise. -/
def write_matches (content : Str) (num : Int) (pattern : Str) (file : Option Str) :
    Option Str :=
  some (file.getD [] ++ print_matches content num pattern)

/-- `purge_file` from `src/grrs/src/lib.rs`, lines 96-102: if the file
exists, `remove_file` is attempted and its failure is propagated by `?`;
otherwise nothing happens.  `removeOk` is the oracle for the OS remove
call. -/
def purge_file (file : Option Str) (removeOk : Bool) : Except Str (Option Str) :=
  match file with
  | some _ => if removeOk then Except.ok none else Except.error (lit "permission denied")
  | none => Except.ok none

/-- `write_matches` with its two fallible OS interactions made explicit.
`openOk` is the oracle of the `OpenOptions::open` call, whose failure the
source propagates with `?`.  All records are first buffered in the
`BufWriter` (each `writer.write` call copies the bytes into the in-memory
buffer and succeeds); the buffer reaches the file only through the flush
that `BufWriter`'s `Drop` implementation performs when `writer` goes out
of scope, and the standard library documents that this drop-time flush
IGNORES errors.  `flushOk` is the oracle of that final flush: when it
fails, the buffered records are lost, the file keeps only what the open
had left there (its previous content, or empty when it was just created),
and the function still returns `Ok(())`. -/
def write_matchesEff (content : Str) (num : Int) (pattern : Str)
    (openOk flushOk : Bool) (file : Option Str) : Except Str Unit × Option Str :=
  if openOk then
    if flushOk then (Except.ok (), write_matches content num pattern file)
    else (Except.ok (), some (file.getD []))
  else (Except.error (lit "could not open output file"), file)

/-- `print_matches` with a fallible sink: `ok k` tells whether the k-th
`writeln!` call on the writer succeeds; on the first failure the `?`
operator aborts the loop with the error. -/
def print_matchesGo (num : Int) (pattern : Str) (ok : Nat → Bool) :
    List Str → Nat → Str → Except Str Str
  | [], _, acc => Except.ok acc
  | l :: ls, k, acc =>
    if containsChars l pattern then
      if ok k then print_matchesGo num pattern ok ls (k + 1) (acc ++ record num l)
      else Except.error (lit "write failed")
    else print_matchesGo num pattern ok ls k acc

/-- `print_matches` over a fallible sink: either the bytes the sink
received, or the first write error. -/
def print_matchesE (content : Str) (num : Int) (pattern : Str) (ok : Nat → Bool) :
    Except Str Str :=
  print_matchesGo num pattern ok (rustLines content) 0 []

/-- The number of lines of `content` that contain `pattern` (the number of
records `print_matches` writes). -/
def matchCount (content : Str) (pattern : Str) : Nat :=
  ((rustLines content).filter (fun l => containsChars l pattern)).length

/-- Models `pattern.trim().is_empty()` from `src/grrs/src/main.rs`,
line 30: the pattern trimmed of Unicode whitespace is empty exactly when
every character is whitespace.  `rustIsWhitespace` lists the Unicode
White_Space code points that Rust `char::is_whitespace` recognises. -/
def rustIsWhitespace (c : Char) : Bool :=
  ('\t' ≤ c && c ≤ '\x0d') || c = ' ' || c = '\x85' || c = '\xa0' || c = '\u1680' ||
    ('\u2000' ≤ c && c ≤ '\u200a') || c = '\u2028' || c = '\u2029' || c = '\u202f' ||
    c = '\u205f' || c = '\u3000'

/-- `pattern.trim().is_empty()`: the validation check of the driver. -/
def trimIsEmpty (s : Str) : Bool := s.all rustIsWhitespace

/-- Two's-complement wrap of an integer into the i32 range
[-2147483648, 2147483648), that is modulo 2 to the 32nd recentred around
zero.  The driver's `line_num` (`src/grrs/src/main.rs`, line 37) is an
`i32`, so `line_num += 1` wraps here in release builds (debug builds
panic at the same boundary, so past it the counter is not the true
position either way; the wrapping release semantics is what is
modelled). -/
def wrap32 (n : Int) : Int := (n + 2147483648) % 4294967296 - 2147483648

/-- The stdout loop of `main` (`src/grrs/src/main.rs`, lines 41-44):
the `i32` counter `line_num` is incremented (with wrap) before each call,
and `print_matches` is called once per input line, writing to standard
output.  The returned value is the byte sequence standard output
receives. -/
def mainLoopStdout (pattern : Str) : List Str → Int → Str
  | [], _ => []
  | l :: ls, n =>
      print_matches l (wrap32 (n + 1)) pattern ++ mainLoopStdout pattern ls (wrap32 (n + 1))

/-- The outfile loop of `main` (`src/grrs/src/main.rs`, lines 49-52):
`write_matches` is called once per input line, with the same wrapping
`i32` counter, on the output file state (happy path: every open and every
flush succeeds). -/
def mainWriteLoop (pattern : Str) : List Str → Int → Option Str → Option Str
  | [], _, st => st
  | l :: ls, n, st =>
      mainWriteLoop pattern ls (wrap32 (n + 1)) (write_matches l (wrap32 (n + 1)) pattern st)

/-- The driver `main` from `src/grrs/src/main.rs`, lines 24-57.  Errors
are pairs of the top-level message and the optional `with_context` cause,
mirroring an `anyhow` error chain.  `input` is the result of
`File::open(path)` (`Except.error os` when the open fails with OS message
`os`); `pathName` is the display of the input path; `outfileName` is the
optional `--outfile` argument; `removeOk` is the oracle of the
`remove_file` call inside `purge_file`; `st` is the state of the file at
the output path.  The result is the bytes written to standard output (or
the terminal error) paired with the final state of the output file.
Failures of the per-line output writes are modelled separately by
`print_matchesE` / `write_matchesEff`. -/
def main_run (pattern pathName : Str) (input : Except Str Str)
    (outfileName : Option Str) (removeOk : Bool) (st : Option Str) :
    Except (Str × Option Str) Str × Option Str :=
  if trimIsEmpty pattern then
    (Except.error (lit "pattern appears to be empty", none), st)
  else
    match input with
    | Except.error os =>
        (Except.error (lit "could not read file `" ++ pathName ++ lit "`", some os), st)
    | Except.ok content =>
        match outfileName with
        | none => (Except.ok (mainLoopStdout pattern (rustLines content) 0), st)
        | some oname =>
            match purge_file st removeOk with
            | Except.error cause =>
                (Except.error (lit "could not create file '" ++ oname ++ lit "'", some cause),
                  st)
            | Except.ok st1 =>
                (Except.ok [], mainWriteLoop pattern (rustLines content) 0 st1)

/-- Spec side (refinement target for C1), following the specification
words: pair every line with its 1-based position. -/
def posFrom (n : Int) : List Str → List (Int × Str)
  | [] => []
  | l :: ls => (n, l) :: posFrom (n + 1) ls

/-- Concatenation of a list of texts. -/
def joinStrs : List Str → Str
  | [] => []
  | l :: ls => l ++ joinStrs ls

/-- Spec side (refinement target for C1), following the specification
words: the records are exactly the lines containing the pattern, in their
original order, each rendered as the record of its 1-based position. -/
def specRecords (pattern : Str) (lines : List Str) : List Str :=
  ((posFrom 1 lines).filter (fun q => containsChars q.2 pattern)).map
    (fun q => record q.1 q.2)

/-- Spec side: the full emitted output described by the specification. -/
def specOutput (pattern : Str) (lines : List Str) : Str :=
  joinStrs (specRecords pattern lines)

/-! ## Lemmas about substring containment -/

/-- Every text starts with the empty pattern. -/
theorem startsWithChars_nil_pat (h : Str) : startsWithChars h [] = true := by
  cases h <;> rfl

/-- A text that begins with `p` starts with `p`. -/
theorem startsWithChars_self_append (p t : Str) : startsWithChars (p ++ t) p = true := by
  induction p with
  | nil => exact startsWithChars_nil_pat t
  | cons c ps ih => simp [startsWithChars, ih]

/-- The empty pattern is contained in every text. -/
theorem containsChars_nil_pat (h : Str) : containsChars h [] = true := by
  cases h with
  | nil => rfl
  | cons c hs => simp [containsChars, startsWithChars]

/-- A nonempty pattern is not contained in the empty text. -/
theorem containsChars_nil_of_ne (p : Str) (hp : p ≠ []) : containsChars [] p = false := by
  cases p with
  | nil => exact absurd rfl hp
  | cons c ps => rfl

/-- A text that begins with the pattern contains it. -/
theorem containsChars_left (p z : Str) : containsChars (p ++ z) p = true := by
  cases p with
  | nil => exact containsChars_nil_pat z
  | cons c ps =>
      simp [containsChars, startsWithChars, startsWithChars_self_append ps z]

/-- A text with the pattern somewhere inside contains it. -/
theorem containsChars_right (x p z : Str) : containsChars (x ++ (p ++ z)) p = true := by
  induction x with
  | nil => simpa using containsChars_left p z
  | cons a xs ih =>
      have hstep : containsChars ((a :: xs) ++ (p ++ z)) p
          = (startsWithChars ((a :: xs) ++ (p ++ z)) p || containsChars (xs ++ (p ++ z)) p) :=
        rfl
      rw [hstep, ih]
      simp

/-! ## Lemmas about line splitting -/

/-- `splitNl` always yields at least one fragment. -/
theorem splitNl_ne_nil (s : Str) : splitNl s ≠ [] := by
  cases s with
  | nil => simp [splitNl]
  | cons c cs =>
      simp only [splitNl]
      by_cases hc : c = '\n'
      · simp [hc]
      · simp only [hc, if_false]
        cases splitNl cs <;> simp

/-- A newline-free text is a single fragment. -/
theorem splitNl_noNl (s : Str) (h : ¬ '\n' ∈ s) : splitNl s = [s] := by
  induction s with
  | nil => rfl
  | cons c cs ih =>
      have hc : ¬ c = '\n' := fun hh => h (hh ▸ List.mem_cons_self c cs)
      have hcs : ¬ '\n' ∈ cs := fun hh => h (List.mem_cons_of_mem c hh)
      have hc2 : ¬ c = '\n' := hc
      simp only [splitNl, ih hcs]
      rw [if_neg hc]

/-- No fragment produced by `splitNl` contains a newline. -/
theorem mem_splitNl_noNl (s : Str) : ∀ p ∈ splitNl s, ¬ '\n' ∈ p := by
  induction s with
  | nil =>
      intro p hp
      simp only [splitNl, List.mem_singleton] at hp
      simp [hp]
  | cons c cs ih =>
      intro p hp
      simp only [splitNl] at hp
      by_cases hc : c = '\n'
      · rw [if_pos hc] at hp
        rcases List.mem_cons.mp hp with h1 | h2
        · simp [h1]
        · exact ih p h2
      · rw [if_neg hc] at hp
        cases hsp : splitNl cs with
        | nil => exact absurd hsp (splitNl_ne_nil cs)
        | cons q qs =>
            rw [hsp] at hp
            rcases List.mem_cons.mp hp with h1 | h2
            · subst h1
              have hq : ¬ '\n' ∈ q := ih q (hsp ▸ List.mem_cons_self q qs)
              intro hm
              rcases List.mem_cons.mp hm with h3 | h4
              · exact hc h3.symm
              · exact hq h4
            · exact ih p (hsp ▸ List.mem_cons_of_mem q h2)

/-- `stripCR` introduces no newline. -/
theorem stripCR_noNl (l : Str) (h : ¬ '\n' ∈ l) : ¬ '\n' ∈ stripCR l := by
  induction l with
  | nil => simp [stripCR]
  | cons c cs ih =>
      cases cs with
      | nil =>
          simp only [stripCR]
          by_cases hc : c = '\r'
          · simp [hc]
          · rw [if_neg hc]
            simpa using h
      | cons d ds =>
          have hd : ¬ '\n' ∈ (d :: ds) := fun hm => h (List.mem_cons_of_mem c hm)
          have hc : ¬ c = '\n' := by
            intro hh
            exact h (hh ▸ List.mem_cons_self c (d :: ds))
          simp only [stripCR]
          intro hm
          rcases List.mem_cons.mp hm with h1 | h2
          · exact hc h1.symm
          · exact ih hd h2

/-- No line assembled by `rustLinesAux` contains a newline, provided no
fragment does. -/
theorem mem_rustLinesAux_noNl (parts : List Str)
    (hp : ∀ p ∈ parts, ¬ '\n' ∈ p) : ∀ l ∈ rustLinesAux parts, ¬ '\n' ∈ l := by
  induction parts with
  | nil => intro l hl; simp [rustLinesAux] at hl
  | cons q qs ih =>
      intro l hl
      cases qs with
      | nil =>
          simp only [rustLinesAux] at hl
          by_cases hq : q = []
          · simp [hq] at hl
          · rw [if_neg hq] at hl
            simp only [List.mem_singleton] at hl
            exact hl ▸ hp q (List.mem_cons_self q [])
      | cons r rs =>
          simp only [rustLinesAux] at hl
          rcases List.mem_cons.mp hl with h1 | h2
          · exact h1 ▸ stripCR_noNl q (hp q (List.mem_cons_self q (r :: rs)))
          · exact ih (fun p hm => hp p (List.mem_cons_of_mem q hm)) l h2

/-- No line produced by `rustLines` contains a newline. -/
theorem rustLines_noNl (s : Str) : ∀ l ∈ rustLines s, ¬ '\n' ∈ l :=
  mem_rustLinesAux_noNl (splitNl s) (mem_splitNl_noNl s)

/-- A newline-free text is its own single line (or no line at all when it
is empty). -/
theorem rustLines_single (l : Str) (h : ¬ '\n' ∈ l) :
    rustLines l = if l = [] then [] else [l] := by
  unfold rustLines
  rw [splitNl_noNl l h]
  rfl

/-- On a newline-free text and a nonempty pattern, `print_matches` writes
exactly one record when the text contains the pattern and nothing
otherwise. -/
theorem print_matches_single (l : Str) (n : Int) (p : Str)
    (hl : ¬ '\n' ∈ l) (hp : p ≠ []) :
    print_matches l n p = if containsChars l p then record n l else [] := by
  unfold print_matches
  rw [rustLines_single l hl]
  by_cases h0 : l = []
  · subst h0
    rw [containsChars_nil_of_ne p hp]
    simp
  · rw [if_neg h0]
    simp [List.foldl_cons]

/-! ## Lemmas about the emitted output -/

/-- The accumulating loop of `print_matches` emits the concatenation of
the records of the matching lines. -/
theorem foldl_emit (p : Str) (n : Int) (ls : List Str) :
    ∀ acc : Str,
      ls.foldl (fun out line => if containsChars line p then out ++ record n line else out) acc
        = acc ++ joinStrs ((ls.filter (fun l => containsChars l p)).map (record n)) := by
  induction ls with
  | nil => intro acc; simp [joinStrs]
  | cons l ls ih =>
      intro acc
      rw [List.foldl_cons, List.filter_cons]
      by_cases hc : containsChars l p = true
      · rw [if_pos hc, if_pos hc, ih (acc ++ record n l)]
        simp [joinStrs, List.append_assoc]
      · rw [if_neg hc, if_neg hc, ih acc]

/-- `print_matches` written as filter-then-render. -/
theorem print_matches_filter (content : Str) (num : Int) (pattern : Str) :
    print_matches content num pattern
      = joinStrs (((rustLines content).filter (fun l => containsChars l pattern)).map
          (record num)) := by
  unfold print_matches
  rw [foldl_emit pattern num (rustLines content) []]
  rfl

/-- `wrap32` is the identity on the i32 range. -/
theorem wrap32_eq_self (n : Int) (h1 : -2147483648 ≤ n) (h2 : n < 2147483648) :
    wrap32 n = n := by
  unfold wrap32
  omega

/-- The stdout loop of the driver computes exactly the specification
output — matching lines in order, rendered with their 1-based
positions — as long as the i32 counter stays in range. -/
theorem mainLoopStdout_spec (pattern : Str) (hp : pattern ≠ []) (ls : List Str)
    (hls : ∀ l ∈ ls, ¬ '\n' ∈ l) :
    ∀ n : Int, 0 ≤ n → n + ls.length < 2147483648 →
      mainLoopStdout pattern ls n
        = joinStrs (((posFrom (n + 1) ls).filter (fun q => containsChars q.2 pattern)).map
            (fun q => record q.1 q.2)) := by
  induction ls with
  | nil => intro n _ _; rfl
  | cons l ls ih =>
      intro n hn hb
      have hl : ¬ '\n' ∈ l := hls l (List.mem_cons_self l ls)
      have hrest : ∀ x ∈ ls, ¬ '\n' ∈ x := fun x hx => hls x (List.mem_cons_of_mem l hx)
      have hb1 : n + 1 + (ls.length : Int) < 2147483648 := by
        simp only [List.length_cons] at hb
        push_cast at hb ⊢
        omega
      have hw : wrap32 (n + 1) = n + 1 := by
        have hlen : (0 : Int) ≤ (ls.length : Int) := Int.ofNat_nonneg ls.length
        exact wrap32_eq_self (n + 1) (by omega) (by omega)
      simp only [mainLoopStdout, posFrom]
      rw [hw, print_matches_single l (n + 1) pattern hl hp, ih hrest (n + 1) (by omega) hb1]
      rw [List.filter_cons]
      by_cases hc : containsChars l pattern = true
      · simp [hc, joinStrs]
      · simp [hc]

/-! ## Lemmas about the fallible sink -/

/-- A successful run of the fallible loop produced exactly the bytes of
the pure loop. -/
theorem print_matchesGo_ok_eq (num : Int) (pattern : Str) (ok : Nat → Bool) :
    ∀ (ls : List Str) (k : Nat) (acc s : Str),
      print_matchesGo num pattern ok ls k acc = Except.ok s →
      s = ls.foldl
            (fun out line => if containsChars line pattern then out ++ record num line else out)
            acc := by
  intro ls
  induction ls with
  | nil =>
      intro k acc s h
      simp only [print_matchesGo] at h
      cases h
      rfl
  | cons l ls ih =>
      intro k acc s h
      simp only [print_matchesGo] at h
      by_cases hc : containsChars l pattern = true
      · rw [if_pos hc] at h
        by_cases ho : ok k = true
        · rw [if_pos ho] at h
          rw [List.foldl_cons, if_pos hc]
          exact ih (k + 1) (acc ++ record num l) s h
        · rw [if_neg ho] at h
          cases h
      · rw [if_neg hc] at h
        rw [List.foldl_cons, if_neg hc]
        exact ih k acc s h

/-- A successful run of the fallible loop consulted the sink once per
matching line, and every consulted write succeeded. -/
theorem print_matchesGo_ok_all (num : Int) (pattern : Str) (ok : Nat → Bool) :
    ∀ (ls : List Str) (k : Nat) (acc s : Str),
      print_matchesGo num pattern ok ls k acc = Except.ok s →
      ∀ j, j < (ls.filter (fun l => containsChars l pattern)).length → ok (k + j) = true := by
  intro ls
  induction ls with
  | nil => intro k acc s _ j hj; simp at hj
  | cons l ls ih =>
      intro k acc s h j hj
      simp only [print_matchesGo] at h
      rw [List.filter_cons] at hj
      by_cases hc : containsChars l pattern = true
      · rw [if_pos hc] at h
        rw [if_pos hc] at hj
        by_cases ho : ok k = true
        · rw [if_pos ho] at h
          cases j with
          | zero => simpa using ho
          | succ i =>
              have hi : i < (ls.filter (fun l => containsChars l pattern)).length := by
                simpa using Nat.lt_of_succ_lt_succ (by simpa using hj)
              have := ih (k + 1) (acc ++ record num l) s h i hi
              have harith : k + 1 + i = k + (i + 1) := by omega
              rw [harith] at this
              exact this
        · rw [if_neg ho] at h
          cases h
      · rw [if_neg hc] at h
        rw [if_neg hc] at hj
        exact ih k acc s h j hj

/-- Character sequences with distinct heads differ. -/
theorem head_ne (a b : Char) (xs ys : Str) (hab : ¬ a = b) : ¬ a :: xs = b :: ys := by
  intro h
  injection h with h1 _
  exact hab h1

/-- Prepending one line "b" terminated by a newline to a text prepends
the line "b" to its lines. -/
theorem rustLines_bn (s : Str) : rustLines (lit "b\n" ++ s) = lit "b" :: rustLines s := by
  show rustLinesAux (splitNl ('b' :: '\n' :: s)) = ['b'] :: rustLinesAux (splitNl s)
  have h1 : splitNl ('b' :: '\n' :: s) = ['b'] :: splitNl s := rfl
  rw [h1]
  cases hs : splitNl s with
  | nil => exact absurd hs (splitNl_ne_nil s)
  | cons q qs => simp [rustLinesAux, stripCR]

/-- The lines of K copies of "b" plus newline, followed by a remainder
text, are K lines "b" followed by the lines of the remainder. -/
theorem rustLines_replicate_bn (rest : Str) :
    ∀ K : Nat, rustLines (joinStrs (List.replicate K (lit "b\n")) ++ rest)
      = List.replicate K (lit "b") ++ rustLines rest := by
  intro K
  induction K with
  | zero => simp [joinStrs]
  | succ K ih =>
      simp only [List.replicate_succ, joinStrs]
      rw [List.append_assoc, rustLines_bn, ih]
      rfl

/-- The stdout loop advances its counter over non-matching lines "b"
without emitting anything, as long as the i32 counter stays in range. -/
theorem mainLoopStdout_skip (p : Str) (hp : p ≠ [])
    (hb : containsChars (lit "b") p = false) (rest : List Str) :
    ∀ (K : Nat) (n : Int), 0 ≤ n → n + K < 2147483648 →
      mainLoopStdout p (List.replicate K (lit "b") ++ rest) n
        = mainLoopStdout p rest (n + K) := by
  intro K
  induction K with
  | zero => intro n _ _; simp
  | succ K ih =>
      intro n hn hlt
      have hlt2 : n + 1 + (K : Int) < 2147483648 := by
        push_cast at hlt
        omega
      have hw : wrap32 (n + 1) = n + 1 := wrap32_eq_self (n + 1) (by omega) (by omega)
      simp only [List.replicate_succ, List.cons_append, mainLoopStdout, List.append_eq]
      rw [hw, print_matches_single (lit "b") (n + 1) p (by decide) hp, hb]
      simp only [Bool.false_eq_true, if_false, List.nil_append, List.append_eq]
      rw [ih (n + 1) (by omega) hlt2]
      have harg : n + 1 + (K : Int) = n + ((K + 1 : Nat) : Int) := by push_cast; ring
      rw [harg]

/-- The spec-side position pairing drops non-matching lines "b" while
still advancing the position. -/
theorem posFrom_filter_skip (pat : Str) (hb : containsChars (lit "b") pat = false)
    (rest : List Str) :
    ∀ (K : Nat) (n : Int),
      (posFrom n (List.replicate K (lit "b") ++ rest)).filter
          (fun q => containsChars q.2 pat)
        = (posFrom (n + K) rest).filter (fun q => containsChars q.2 pat) := by
  intro K
  induction K with
  | zero => intro n; simp
  | succ K ih =>
      intro n
      simp only [List.replicate_succ, List.cons_append, posFrom, List.filter_cons,
        List.append_eq]
      simp only [hb, Bool.false_eq_true, if_false]
      rw [ih (n + 1)]
      have harg : n + 1 + (K : Int) = n + ((K + 1 : Nat) : Int) := by push_cast; ring
      rw [harg]

/-- Past validation, the stdout path of the driver returns the bytes of
the stdout loop over the lines of the input content. -/
theorem main_run_stdout_ok (pattern pathName content : Str) (st : Option Str)
    (ht : trimIsEmpty pattern = false) :
    (main_run pattern pathName (Except.ok content) none true st).1
      = Except.ok (mainLoopStdout pattern (rustLines content) 0) := by
  simp [main_run, ht]

/-! ## The claims -/

/-- Claim C1 as amended: on the stdout path of the driver (no output path
given), whenever the run reaches the processing loop and succeeds, AND
the input has at most 2147483647 lines (so the driver's i32 line counter
never leaves its range), the records emitted to standard output are
exactly the input lines containing the pattern as a substring, in their
original order, each rendered as "LINE# n: content" plus newline where n
is the 1-based position of the line in the input.  For larger inputs the
counter wraps and the rendered numbers are not the true positions — see
the counterexample. -/
theorem C1_stdout_matches_spec (pattern pathName content : Str) (st : Option Str) (out : Str)
    (hp : pattern ≠ [])
    (hlen : (rustLines content).length < 2147483648)
    (h : (main_run pattern pathName (Except.ok content) none true st).1 = Except.ok out) :
    out = specOutput pattern (rustLines content) := by
  by_cases ht : trimIsEmpty pattern = true
  · simp [main_run, ht] at h
  · simp only [main_run, ht, Bool.false_eq_true, if_false] at h
    have hb : (0 : Int) + ((rustLines content).length : Int) < 2147483648 := by
      omega
    have hspec := mainLoopStdout_spec pattern hp (rustLines content) (rustLines_noNl content)
      0 le_rfl hb
    simp only [Except.ok.injEq] at h
    rw [← h]
    exact hspec

/-- Witness for C1: the specification's own example, with the driver run
evaluated on the concrete input file content. -/
theorem C1_stdout_matches_spec_witness :
    lit "LINE# 1: A test\nLINE# 4: Another test\n"
      = specOutput (lit "test")
          (rustLines (lit "A test\nActual content\nMore content\nAnother test\n")) :=
  C1_stdout_matches_spec (lit "test") (lit "input.txt")
    (lit "A test\nActual content\nMore content\nAnother test\n") none
    (lit "LINE# 1: A test\nLINE# 4: Another test\n")
    (by decide) (by decide) (by rfl)

/-- Counterexample to claim C1 as stated: a concrete input file with
exactly 2147483648 lines — 2147483647 lines "b" followed by one line "a"
— and pattern "a".  The driver run succeeds, but the single emitted
record carries the wrapped i32 counter value -2147483648 instead of the
final line's true 1-based position 2147483648, so the emitted output is
not the specification rendering. -/
theorem C1_counterexample :
    ∃ out : Str,
      (main_run (lit "a") (lit "big.txt")
          (Except.ok (joinStrs (List.replicate 2147483647 (lit "b\n")) ++ lit "a"))
          none true none).1 = Except.ok out
      ∧ ¬ out = specOutput (lit "a")
            (rustLines (joinStrs (List.replicate 2147483647 (lit "b\n")) ++ lit "a")) := by
  have hlines : rustLines (joinStrs (List.replicate 2147483647 (lit "b\n")) ++ lit "a")
      = List.replicate 2147483647 (lit "b") ++ [lit "a"] := by
    rw [rustLines_replicate_bn (lit "a") 2147483647]
    rw [show rustLines (lit "a") = [lit "a"] from rfl]
  have hca : containsChars (lit "a") (lit "a") = true := by decide
  have hout : mainLoopStdout (lit "a") (List.replicate 2147483647 (lit "b") ++ [lit "a"]) 0
      = record (-2147483648) (lit "a") := by
    rw [mainLoopStdout_skip (lit "a") (by decide) (by decide) [lit "a"] 2147483647 0
      le_rfl (by omega)]
    rw [show (0 : Int) + ((2147483647 : Nat) : Int) = 2147483647 from by omega]
    simp only [mainLoopStdout]
    rw [show wrap32 (2147483647 + 1) = -2147483648 from by decide]
    rw [print_matches_single (lit "a") (-2147483648) (lit "a") (by decide) (by decide)]
    simp [hca]
  have hspec : specOutput (lit "a") (List.replicate 2147483647 (lit "b") ++ [lit "a"])
      = record 2147483648 (lit "a") := by
    unfold specOutput specRecords
    rw [posFrom_filter_skip (lit "a") (by decide) [lit "a"] 2147483647 1]
    rw [show (1 : Int) + ((2147483647 : Nat) : Int) = 2147483648 from by omega]
    simp only [posFrom, List.filter_cons, List.filter_nil]
    simp [hca, joinStrs]
  refine ⟨record (-2147483648) (lit "a"), ?_, ?_⟩
  · rw [main_run_stdout_ok (lit "a") (lit "big.txt")
      (joinStrs (List.replicate 2147483647 (lit "b\n")) ++ lit "a") none (by decide)]
    rw [hlines, hout]
  · rw [hlines, hspec]
    decide

/-- Claim C2: `print_matches` called directly with the empty pattern
emits a record for every line of the content block; no line is filtered
out. -/
theorem C2_empty_pattern_matches_every_line (content : Str) (num : Int) :
    print_matches content num [] = joinStrs ((rustLines content).map (record num)) := by
  rw [print_matches_filter]
  have hall : (rustLines content).filter (fun l => containsChars l []) = rustLines content :=
    List.filter_eq_self.mpr (fun l _ => containsChars_nil_pat l)
  rw [hall]

/-- Claim C3: for an empty or whitespace-only pattern the driver fails
with exactly the error "pattern appears to be empty", before any I/O:
the result does not depend on the input file at all and the output file
state is untouched.  For every other pattern the check passes: the
validation message is never produced. -/
theorem C3_empty_pattern_check (pattern pathName : Str) (i1 i2 : Except Str Str)
    (outfileName : Option Str) (r1 r2 : Bool) (st : Option Str) :
    (trimIsEmpty pattern = true →
        main_run pattern pathName i1 outfileName r1 st
          = (Except.error (lit "pattern appears to be empty", none), st)
        ∧ main_run pattern pathName i1 outfileName r1 st
          = main_run pattern pathName i2 outfileName r2 st)
    ∧ (trimIsEmpty pattern = false →
        ∀ msg cause, (main_run pattern pathName i1 outfileName r1 st).1
            = Except.error (msg, cause)
          → ¬ msg = lit "pattern appears to be empty") := by
  constructor
  · intro ht
    constructor <;> simp [main_run, ht]
  · intro ht msg cause h
    simp only [main_run, ht, Bool.false_eq_true, if_false] at h
    cases i1 with
    | error os =>
        simp only [Except.error.injEq, Prod.mk.injEq] at h
        rw [← h.1]
        rw [show lit "could not read file `" = 'c' :: lit "ould not read file `" from rfl,
          List.cons_append, List.cons_append]
        exact head_ne 'c' 'p' _ _ (by decide)
    | ok content =>
        cases outfileName with
        | none => simp at h
        | some oname =>
            cases hpf : purge_file st r1 with
            | error cause2 =>
                simp only [hpf, Except.error.injEq, Prod.mk.injEq] at h
                rw [← h.1]
                rw [show lit "could not create file '" = 'c' :: lit "ould not create file '"
                    from rfl, List.cons_append, List.cons_append]
                exact head_ne 'c' 'p' _ _ (by decide)
            | ok st1 => simp [hpf] at h

/-- Witness for C3: a whitespace-only pattern fails with the validation
error and leaves the output file state untouched. -/
theorem C3_empty_pattern_check_witness :
    main_run (lit " \t ") (lit "input.txt") (Except.ok (lit "some data")) none true none
      = (Except.error (lit "pattern appears to be empty", none), none) :=
  ((C3_empty_pattern_check (lit " \t ") (lit "input.txt") (Except.ok (lit "some data"))
      (Except.error (lit "ignored")) none true false none).1 (by decide)).1

/-- Claim C4: when the input file cannot be opened, the driver fails with
an error whose message contains "could not read file" and the literal
path, whose cause is the underlying OS message (for a nonexistent path,
"No such file or directory"), and no matching or output is performed:
the output file state is unchanged and nothing is written to standard
output. -/
theorem C4_open_failure (pattern pathName os : Str) (outfileName : Option Str)
    (removeOk : Bool) (st : Option Str) (hp : trimIsEmpty pattern = false) :
    main_run pattern pathName (Except.error os) outfileName removeOk st
      = (Except.error (lit "could not read file `" ++ pathName ++ lit "`", some os), st)
    ∧ containsChars (lit "could not read file `" ++ pathName ++ lit "`")
        (lit "could not read file") = true
    ∧ containsChars (lit "could not read file `" ++ pathName ++ lit "`") pathName = true := by
  refine ⟨by simp [main_run, hp], ?_, ?_⟩
  · rw [show lit "could not read file `" = lit "could not read file" ++ lit " `" from by decide]
    simp only [List.append_assoc]
    exact containsChars_left (lit "could not read file") (lit " `" ++ (pathName ++ lit "`"))
  · simp only [List.append_assoc]
    exact containsChars_right (lit "could not read file `") pathName (lit "`")

/-- Witness for C4 at a nonexistent path: the OS cause is the literal
"No such file or directory" message. -/
theorem C4_open_failure_witness :
    main_run (lit "foobar") (lit "test/file/doesnt/exist")
        (Except.error (lit "No such file or directory (os error 2)")) none true none
      = (Except.error
          (lit "could not read file `" ++ lit "test/file/doesnt/exist" ++ lit "`",
            some (lit "No such file or directory (os error 2)")), none) :=
  (C4_open_failure (lit "foobar") (lit "test/file/doesnt/exist")
    (lit "No such file or directory (os error 2)") none true none (by decide)).1

/-- Claim C5: the output-file path of the driver (purge once, then
`write_matches` per input line) is idempotent: running it a second time
with the same pattern, input content and output path, starting from the
file state the first run left behind, ends in exactly the file state the
first run produced; matches never accumulate across runs. -/
theorem C5_purge_write_idempotent (pattern pathName content oname : Str) (st : Option Str) :
    (main_run pattern pathName (Except.ok content) (some oname) true
        (main_run pattern pathName (Except.ok content) (some oname) true st).2).2
      = (main_run pattern pathName (Except.ok content) (some oname) true st).2 := by
  have hpurge : ∀ s : Option Str, purge_file s true = Except.ok none := by
    intro s; cases s <;> rfl
  by_cases ht : trimIsEmpty pattern = true
  · simp [main_run, ht]
  · simp [main_run, ht, hpurge]

/-- Claim C6: `purge_file` deletes an existing file and returns Ok; on a
missing file it leaves the filesystem unchanged and returns Ok; a failing
deletion is returned to the caller as an error. -/
theorem C6_purge_contract (st : Option Str) (removeOk : Bool) :
    (st.isSome = true → removeOk = true → purge_file st removeOk = Except.ok none)
    ∧ (st = none → purge_file st removeOk = Except.ok st)
    ∧ (st.isSome = true → removeOk = false →
        purge_file st removeOk = Except.error (lit "permission denied")) := by
  cases st with
  | none =>
      refine ⟨?_, ?_, ?_⟩
      · intro h1 _; cases h1
      · intro _; rfl
      · intro h1 _; cases h1
  | some v =>
      cases removeOk with
      | true =>
          refine ⟨?_, ?_, ?_⟩
          · intro _ _; rfl
          · intro h1; cases h1
          · intro _ h2; cases h2
      | false =>
          refine ⟨?_, ?_, ?_⟩
          · intro _ h2; cases h2
          · intro h1; cases h1
          · intro _ _; rfl

/-- Witness for C6: one instance of each of the three cases. -/
theorem C6_purge_contract_witness :
    purge_file (some (lit "old")) true = Except.ok none
    ∧ purge_file none false = Except.ok none
    ∧ purge_file (some (lit "old")) false = Except.error (lit "permission denied") :=
  ⟨(C6_purge_contract (some (lit "old")) true).1 rfl rfl,
    (C6_purge_contract none false).2.1 rfl,
    ((C6_purge_contract (some (lit "old")) false).2.2) rfl rfl⟩

/-- Counterexample to claim C7 as stated.  In `write_matches` the records
are buffered in a `BufWriter` that is dropped without an explicit
`flush()`; the drop-time flush ignores errors.  Concretely: content "a",
line number 1, pattern "a", output file absent, open succeeds, the final
flush fails.  The record "LINE# 1: a" plus newline should have been
written (third conjunct: the intended bytes are nonempty), the file ends
up existing but empty (second conjunct: the bytes were lost), and yet the
call returns Ok (first conjunct) — the write failure was discarded, not
reported. -/
theorem C7_counterexample :
    (write_matchesEff (lit "a") 1 (lit "a") true false none).1 = Except.ok ()
    ∧ (write_matchesEff (lit "a") 1 (lit "a") true false none).2 = some []
    ∧ print_matches (lit "a") 1 (lit "a") = lit "LINE# 1: a\n" :=
  ⟨rfl, rfl, by decide⟩

/-- Claim C7 as amended: every failure of an explicit fallible call is
surfaced to the caller — the open of the output file in `write_matches`,
the `remove_file` call in `purge_file`, and each record write to the sink
in `print_matches` (if the run returns Ok, every consulted write
succeeded) — but an I/O error at the implicit flush when the `BufWriter`
of `write_matches` is dropped is discarded, so that one write failure can
go unreported (see the counterexample). -/
theorem C7_explicit_errors_propagate (content : Str) (num : Int) (pattern : Str)
    (st : Option Str) (flushOk : Bool) (x : Str) (ok : Nat → Bool) (s : Str) :
    (write_matchesEff content num pattern false flushOk st).1
        = Except.error (lit "could not open output file")
    ∧ purge_file (some x) false = Except.error (lit "permission denied")
    ∧ (print_matchesE content num pattern ok = Except.ok s →
        ∀ j, j < matchCount content pattern → ok j = true) := by
  refine ⟨rfl, rfl, ?_⟩
  intro h j hj
  have := print_matchesGo_ok_all num pattern ok (rustLines content) 0 [] s h j hj
  simpa using this

/-- Witness for C7 (amended): at a concrete run where every write
succeeds, the propagation theorem instantiates cleanly. -/
theorem C7_explicit_errors_propagate_witness :
    (write_matchesEff (lit "a") 1 (lit "a") false true none).1
        = Except.error (lit "could not open output file")
    ∧ (fun _ : Nat => true) 0 = true :=
  ⟨(C7_explicit_errors_propagate (lit "a") 1 (lit "a") none true (lit "x")
      (fun _ => true) (lit "LINE# 1: a\n")).1,
    (C7_explicit_errors_propagate (lit "a") 1 (lit "a") none true (lit "x")
      (fun _ => true) (lit "LINE# 1: a\n")).2.2 (by rfl) 0 (by decide)⟩

/-- Claim C8: within one call of `print_matches` or `write_matches`,
every matching line of the content block is rendered with the same
supplied number; the number is not advanced between lines of the block.
The concrete instance shows a two-line block whose two matches both carry
number 3. -/
theorem C8_same_number_within_block (content : Str) (num : Int) (pattern : Str)
    (st : Option Str) :
    print_matches content num pattern
      = joinStrs (((rustLines content).filter (fun l => containsChars l pattern)).map
          (record num))
    ∧ write_matches content num pattern st
      = some (st.getD [] ++ joinStrs (((rustLines content).filter
          (fun l => containsChars l pattern)).map (record num)))
    ∧ print_matches (lit "alpha test\nbeta test") 3 (lit "test")
      = record 3 (lit "alpha test") ++ record 3 (lit "beta test") :=
  ⟨print_matches_filter content num pattern,
    by rw [write_matches, print_matches_filter],
    by decide⟩

/-- Claim C9: `write_matches` creates the output file even when no line
of the block matches: the file state after a successful call is always
`some`, and with no matching line the call on an absent file yields the
file existing with empty content. -/
theorem C9_write_creates_file (content : Str) (num : Int) (pattern : Str) (st : Option Str) :
    (write_matches content num pattern st).isSome = true
    ∧ ((∀ l ∈ rustLines content, containsChars l pattern = false) →
        write_matches content num pattern none = some []) := by
  refine ⟨rfl, ?_⟩
  intro h
  rw [write_matches, print_matches_filter]
  have hnil : (rustLines content).filter (fun l => containsChars l pattern) = [] :=
    List.filter_eq_nil_iff.mpr (by intro a ha; simp [h a ha])
  rw [hnil]
  rfl

/-- Witness for C9: a block with no match still creates an empty file. -/
theorem C9_write_creates_file_witness :
    write_matches (lit "More content") 1 (lit "zzz") none = some [] :=
  (C9_write_creates_file (lit "More content") 1 (lit "zzz") none).2 (by decide)

/-- Claim C10: `print_matches` is deterministic: two runs with equal
content, number and pattern that both succeed write byte-for-byte
identical output to their sinks, whatever the sinks' failure behaviour
oracles are; that output is the pure function of the three inputs. -/
theorem C10_deterministic (content : Str) (num : Int) (pattern : Str)
    (ok1 ok2 : Nat → Bool) (s1 s2 : Str)
    (h1 : print_matchesE content num pattern ok1 = Except.ok s1)
    (h2 : print_matchesE content num pattern ok2 = Except.ok s2) :
    s1 = s2 ∧ s1 = print_matches content num pattern := by
  have e1 := print_matchesGo_ok_eq num pattern ok1 (rustLines content) 0 [] s1 h1
  have e2 := print_matchesGo_ok_eq num pattern ok2 (rustLines content) 0 [] s2 h2
  exact ⟨e1.trans e2.symm, e1⟩

/-- Witness for C10: two concrete successful runs produce the same
record. -/
theorem C10_deterministic_witness :
    lit "LINE# 1: lorem ipsum\n"
      = print_matches (lit "lorem ipsum\ndolor sit amet") 1 (lit "lorem") :=
  (C10_deterministic (lit "lorem ipsum\ndolor sit amet") 1 (lit "lorem")
    (fun _ => true) (fun k => k < 5) (lit "LINE# 1: lorem ipsum\n")
    (lit "LINE# 1: lorem ipsum\n") (by rfl) (by rfl)).2
